import Mathlib

/-!
Verification development for the promptflow SDK flow entities and the
C# flow executor interface.

The definitions below are a shallow embedding of
`src/promptflow/promptflow/_sdk/entities/_flow.py` and
`src/promptflow/promptflow/_sdk/_submitter/_flow_executor_csharp.py`.
File-system state is modelled as boolean predicates over paths, paths as
lists of components, Python dicts as association lists (insertion
ordered, like Python dicts), and Python exceptions as `Except` errors.
-/

namespace Promptflow

/-- `DAG_FILE_NAME` from `promptflow._sdk._constants`. -/
def DAG_FILE_NAME : String := "flow.dag.yaml"

/-- An absolute filesystem path, as its list of components
(`pathlib.Path`; `name` is the last component, `parent` drops it). -/
abbrev FsPath := List String

/-- `Path.name`: the final component (empty for the root path). -/
def pathName (p : FsPath) : String := p.getLastD ""

/-- `Path.parent`: all components but the last. -/
def pathParent (p : FsPath) : FsPath := p.dropLast

/-- `parent / child` for a single extra component. -/
def pathChild (p : FsPath) (c : String) : FsPath := p ++ [c]

/-- A snapshot of the file system, giving the three predicates the source
queries: `Path.exists`, `Path.is_dir`, `Path.is_file`. -/
structure FileSys where
  pathExists : FsPath → Bool
  isDir : FsPath → Bool
  isFile : FsPath → Bool

/-- The state of a `Flow` object relevant to `Flow.load` / `Flow.path`:
`_code` (always set by `__init__`) and the optional `_path` override. -/
structure FlowRecord where
  code : FsPath
  path : Option FsPath
deriving DecidableEq, Repr

/-- The exceptions `Flow.load` and `Flow.path` can raise. -/
inductive FlowErr where
  /-- `Exception(f"Source ... does not exist")` -/
  | sourceNotExist
  /-- `Exception("Source must be a directory or a 'flow.dag.yaml' file")` -/
  | invalidSource
  /-- `UserErrorException("The directory does not contain a valid flow.")` -/
  | userError (msg : String)
deriving DecidableEq, Repr

/-- `Flow.load(source)`: raise when the source does not exist; a directory
holding `flow.dag.yaml` becomes the flow code; a file named exactly
`flow.dag.yaml` uses its parent directory as code; anything else raises.
Paths in the model are already absolute, so `absolute()` is the
identity. -/
def Flow.load (fs : FileSys) (source : FsPath) : Except FlowErr FlowRecord :=
  if ¬ fs.pathExists source then
    .error .sourceNotExist
  else if fs.isDir source && fs.isFile (pathChild source DAG_FILE_NAME) then
    .ok { code := source, path := none }
  else if fs.isFile source && pathName source == DAG_FILE_NAME then
    .ok { code := pathParent source, path := none }
  else
    .error .invalidSource

/-- The flow file `Flow.path` resolves: `self._path or self.code / DAG_FILE_NAME`.
(`_path` is `None` or a `Path` built from a non-empty string, so Python's
`or` reduces to this option match.) -/
def Flow.resolvedFile (f : FlowRecord) : FsPath :=
  match f.path with
  | some p => p
  | none => pathChild f.code DAG_FILE_NAME

/-- The `Flow.path` property: raise `UserErrorException` when the resolved
flow file is not an existing file, otherwise return it. The property reads
`self._path` and `self.code` only; it never writes the record. -/
def Flow.pathProperty (fs : FileSys) (f : FlowRecord) : Except FlowErr FsPath :=
  let flow_file := Flow.resolvedFile f
  if ¬ fs.isFile flow_file then
    .error (.userError "The directory does not contain a valid flow.")
  else
    .ok flow_file

/-! ## FlowContext: connections resolution and the identity hash -/

/-- A `_Connection` object; only its Python identity (`id()`) is observable
in the embedded code, so it is modelled by that identity. -/
structure ConnObj where
  pid : Nat
deriving DecidableEq, Repr

/-- A value inside a node-scoped connections dict: a plain string, or a
`_Connection` object (the only two kinds the source distinguishes with
`isinstance(conn, _Connection)`). -/
inductive ConnVal where
  | str (s : String)
  | obj (c : ConnObj)
deriving DecidableEq, Repr

/-- A top-level value of `FlowContext.connections`: the source only
rewrites values that are dicts (`isinstance(v, dict)`) and leaves any
other value untouched. -/
inductive ConnEntry where
  | dict (d : List (String × ConnVal))
  | other (s : String)
deriving DecidableEq, Repr

/-- The fields of a `FlowContext` (dicts as insertion-ordered association
lists, exactly the ordering Python dicts expose). -/
structure FlowContextState where
  connections : List (String × ConnEntry)
  connection_objs : List (String × ConnObj)
  variant : Option String
  environment_variables : List (String × String)
  overrides : List (String × String)
  streaming : Option Bool
deriving DecidableEq, Repr

/-- Decimal rendering of a natural number, as Python's `str` / `f"{...}"`
produces for `id(connection)`. -/
def natStr (n : Nat) : String :=
  if n = 0 then "0" else ((Nat.digits 10 n).reverse.map Nat.digitChar).asString

/-- The digit list `natStr` renders, little-endian (a lone 0 for zero). -/
def digitsOf (n : Nat) : List Nat :=
  if n = 0 then [0] else Nat.digits 10 n

/-- `FlowContext._get_connection_obj_name`: `f"connection_{id(connection)}"`. -/
def getConnectionObjName (c : ConnObj) : String :=
  "connection_" ++ natStr c.pid

/-- Python dict assignment `d[k] = v`: update in place when the key exists
(keeping its position), append otherwise. -/
def assocPut (l : List (String × ConnObj)) (k : String) (v : ConnObj) :
    List (String × ConnObj) :=
  if (List.lookup k l).isSome then
    l.map (fun p => if p.1 = k then (k, v) else p)
  else
    l ++ [(k, v)]

/-- The inner loop of `_resolve_connections` over one dict value `v`:
each `_Connection` value is replaced by its generated name and the object
is stored in `_connection_objs` under that name. Returns the rewritten
dict together with the updated `_connection_objs`. -/
def resolveDict :
    List (String × ConnVal) → List (String × ConnObj) →
    List (String × ConnVal) × List (String × ConnObj)
  | [], objs => ([], objs)
  | (k, ConnVal.obj c) :: rest, objs =>
      let nm := getConnectionObjName c
      let r := resolveDict rest (assocPut objs nm c)
      ((k, ConnVal.str nm) :: r.1, r.2)
  | (k, ConnVal.str s) :: rest, objs =>
      let r := resolveDict rest objs
      ((k, ConnVal.str s) :: r.1, r.2)

/-- The outer loop of `_resolve_connections` over `self.connections`:
dict values go through `resolveDict`, any other value is untouched. -/
def resolveEntries :
    List (String × ConnEntry) → List (String × ConnObj) →
    List (String × ConnEntry) × List (String × ConnObj)
  | [], objs => ([], objs)
  | (k, ConnEntry.dict d) :: rest, objs =>
      let rd := resolveDict d objs
      let rr := resolveEntries rest rd.2
      ((k, ConnEntry.dict rd.1) :: rr.1, rr.2)
  | (k, ConnEntry.other s) :: rest, objs =>
      let rr := resolveEntries rest objs
      ((k, ConnEntry.other s) :: rr.1, rr.2)

/-- `FlowContext._resolve_connections`. -/
def resolve_connections (st : FlowContextState) : FlowContextState :=
  let r := resolveEntries st.connections st.connection_objs
  { st with connections := r.1, connection_objs := r.2 }

/-- What `_resolve_connections` does to a single dict value. -/
def resolveVal : String × ConnVal → String × ConnVal
  | (k, ConnVal.obj c) => (k, ConnVal.str (getConnectionObjName c))
  | (k, ConnVal.str s) => (k, ConnVal.str s)

/-- What `_resolve_connections` does to a single top-level entry. -/
def resolveEntry : String × ConnEntry → String × ConnEntry
  | (k, ConnEntry.dict d) => (k, ConnEntry.dict (d.map resolveVal))
  | (k, ConnEntry.other s) => (k, ConnEntry.other s)

/-- `FlowContext.__hash__`, parameterized over the runtime hash functions
(`hash` on `Optional[str]`, `hash` on `str`, `hash` on `int`) and over
`json.dumps(..., sort_keys=True)` for the two serialized dicts. The xor
chain mirrors the source: variant, then the connections dump, then each
cached connection object's id, then the overrides dump — and nothing
else; in particular `environment_variables` is never read. -/
def fcHash (hOpt : Option String → Nat) (hStr : String → Nat) (hId : Nat → Nat)
    (dumpsConn : List (String × ConnEntry) → String)
    (dumpsOv : List (String × String) → String)
    (st : FlowContextState) : Nat :=
  let r1 := hOpt st.variant
  let r2 := r1 ^^^ hStr (dumpsConn st.connections)
  let r3 := st.connection_objs.foldl (fun acc p => acc ^^^ hId p.2.pid) r2
  r3 ^^^ hStr (dumpsOv st.overrides)

/-! ## FlowExecutorCSharp signatures

The bodies of `FlowExecutorCSharp` under src are all stub declarations
(`pass`); the signatures below embed the declared parameter lists, in
order, with the textual default of each defaulted parameter. -/

/-- One declared parameter: its name and its default expression, if any. -/
structure Param where
  pname : String
  dflt : Option String
deriving DecidableEq, Repr

/-- Parameters of `FlowExecutorCSharp.create`. -/
def createParams : List Param :=
  [⟨"flow_file", none⟩, ⟨"connections", none⟩, ⟨"working_dir", some "None"⟩,
   ⟨"storage", some "None"⟩, ⟨"raise_ex", some "True"⟩,
   ⟨"node_override", some "None"⟩, ⟨"line_timeout_sec", some "LINE_TIMEOUT_SEC"⟩]

/-- Parameters of `FlowExecutorCSharp.exec_line`. -/
def execLineParams : List Param :=
  [⟨"inputs", none⟩, ⟨"index", some "None"⟩, ⟨"run_id", some "None"⟩,
   ⟨"variant_id", some "\"\""⟩, ⟨"validate_inputs", some "True"⟩,
   ⟨"node_concurrency", some "DEFAULT_CONCURRENCY_FLOW"⟩,
   ⟨"allow_generator_output", some "False"⟩]

/-- Parameters of `FlowExecutorCSharp.exec_aggregation`. -/
def execAggregationParams : List Param :=
  [⟨"inputs", none⟩, ⟨"aggregation_inputs", none⟩, ⟨"run_id", some "None"⟩,
   ⟨"node_concurrency", some "DEFAULT_CONCURRENCY_FLOW"⟩]

/-- Parameters of `FlowExecutorCSharp.load_and_exec_node`. -/
def loadAndExecNodeParams : List Param :=
  [⟨"flow_file", none⟩, ⟨"node_name", none⟩, ⟨"output_sub_dir", some "None"⟩,
   ⟨"flow_inputs", some "None"⟩, ⟨"dependency_nodes_outputs", some "None"⟩,
   ⟨"connections", some "None"⟩, ⟨"working_dir", some "None"⟩,
   ⟨"raise_ex", some "False"⟩]

/-! ## Flow graph and the executor

The executor bodies under src are stubs, so the execution behaviour here
is modelled from the spec (sections 3, 4.2-4.5 and 7): graph, scheduler
in declaration order, line execution with validation and a wall-clock
budget, aggregation over the ordered batch, and single-node execution. -/

/-- Modelled from the spec: a node input binding — literal, flow-level
input reference, or upstream-node-output reference. -/
inductive InputBinding where
  | literal (v : String)
  | flowInput (k : String)
  | nodeOutput (n : String)
deriving DecidableEq, Repr

/-- Modelled from the spec: a node — identifier, tool reference, input
bindings, configuration, aggregation flag, error-tolerance flag. -/
structure FlowNode where
  nid : String
  tool : String
  bindings : List (String × InputBinding)
  config : List (String × String)
  aggregation : Bool
  toleratesError : Bool
deriving DecidableEq, Repr

/-- Modelled from the spec: a named alternative configuration for one node. -/
structure NodeVariant where
  vid : String
  config : List (String × String)
deriving DecidableEq, Repr

/-- Modelled from the spec: an ordered node set with a flow-level
input/output schema and the per-node variant table. -/
structure FlowGraph where
  nodes : List FlowNode
  inputSchema : List String
  outputSchema : List (String × InputBinding)
  node_variants : List (String × List NodeVariant)
deriving DecidableEq, Repr

/-- A pluggable tool table: tool reference and resolved inputs to a
result (or a tool error) and a duration. -/
abbrev ToolTable := String → List (String × String) → Except String String × Nat

/-- Run status, for nodes and rows. -/
inductive Status where
  | notStarted
  | running
  | completed
  | failed
  | timeout
  | skipped
deriving DecidableEq, Repr

/-- Outcome of one node inside a row execution. -/
inductive NodeOutcome where
  | ok (v : String)
  | err (e : String)
  | skipped
deriving DecidableEq, Repr

/-- Per-node record inside a `LineResult`. -/
structure NodeRunInfo where
  node : String
  status : Status
  duration : Nat
  errorMsg : Option String
deriving DecidableEq, Repr

/-- `LineResult` (the spec's RowResult): run id, row index, outputs,
per-node records, overall status, error detail. -/
structure LineResult where
  run_id : Option String
  index : Option Nat
  output : List (String × String)
  nodeRuns : List NodeRunInfo
  status : Status
  errorMsg : Option String
deriving DecidableEq, Repr

/-- `AggregationResult`: aggregated outputs keyed by aggregation-node
identifier, plus per-node aggregation status. -/
structure AggregationResult where
  output : List (String × List String)
  nodeRunInfos : List (String × Status)
deriving DecidableEq, Repr

/-- The sentinel an error-tolerant node receives for a failed dependency
(and a missing key resolves to). -/
def SENTINEL : String := "None"

/-- Outcome recorded for node `n`, skipped when it never ran. -/
def outcomeOf (outs : List (String × NodeOutcome)) (n : String) : NodeOutcome :=
  match List.lookup n outs with
  | some o => o
  | none => NodeOutcome.skipped

/-- Resolve one binding against the row inputs and the outcomes so far. -/
def resolveBinding (inputs : List (String × String))
    (outs : List (String × NodeOutcome)) : InputBinding → String
  | InputBinding.literal v => v
  | InputBinding.flowInput k => (List.lookup k inputs).getD SENTINEL
  | InputBinding.nodeOutput n =>
      match outcomeOf outs n with
      | NodeOutcome.ok v => v
      | _ => SENTINEL

/-- Does some required input of `nd` come from a node that failed or was
skipped? -/
def depFailed (outs : List (String × NodeOutcome)) (nd : FlowNode) : Bool :=
  nd.bindings.any (fun b =>
    match b.2 with
    | InputBinding.nodeOutput n =>
        match outcomeOf outs n with
        | NodeOutcome.ok _ => false
        | _ => true
    | _ => false)

/-- Modelled from the spec: the NodeScheduler for one row, dispatching in
declaration order; a node with a failed (or skipped) dependency is marked
Skipped unless it tolerates errors, in which case it runs on sentinel
inputs. Returns `(node id, outcome, duration)` per executed slot. -/
def runNodes (tools : ToolTable) (inputs : List (String × String)) :
    List FlowNode → List (String × NodeOutcome × Nat) →
    List (String × NodeOutcome × Nat)
  | [], acc => acc
  | nd :: rest, acc =>
      let outs := acc.map (fun t => (t.1, t.2.1))
      if depFailed outs nd && ! nd.toleratesError then
        runNodes tools inputs rest (acc ++ [(nd.nid, NodeOutcome.skipped, 0)])
      else
        let args := nd.bindings.map (fun b => (b.1, resolveBinding inputs outs b.2))
        let r := tools nd.tool args
        match r.1 with
        | Except.ok v => runNodes tools inputs rest (acc ++ [(nd.nid, NodeOutcome.ok v, r.2)])
        | Except.error e => runNodes tools inputs rest (acc ++ [(nd.nid, NodeOutcome.err e, r.2)])

/-- Row validation against the declared flow input schema. -/
def inputsValid (g : FlowGraph) (inputs : List (String × String)) : Bool :=
  g.inputSchema.all (fun k => (List.lookup k inputs).isSome)

/-- Per-node record from one scheduler slot. -/
def nodeRunOf (t : String × NodeOutcome × Nat) : NodeRunInfo :=
  match t.2.1 with
  | NodeOutcome.ok _ => ⟨t.1, Status.completed, t.2.2, none⟩
  | NodeOutcome.err e => ⟨t.1, Status.failed, t.2.2, some e⟩
  | NodeOutcome.skipped => ⟨t.1, Status.skipped, t.2.2, none⟩

/-- First node error of a finished row, if any. -/
def firstNodeError (outs : List (String × NodeOutcome × Nat)) : Option String :=
  outs.findSome? (fun t =>
    match t.2.1 with
    | NodeOutcome.err e => some e
    | _ => none)

/-- The flow-level outputs, resolved from the output schema. -/
def flowOutputs (g : FlowGraph) (inputs : List (String × String))
    (outs : List (String × NodeOutcome)) : List (String × String) :=
  g.outputSchema.map (fun b => (b.1, resolveBinding inputs outs b.2))

/-- Modelled from the spec: `exec_line` (the LineExecutor contract).
Input validation short-circuits with a user-input failure; otherwise the
non-aggregation nodes run under the scheduler; a row over its wall-clock
budget finalizes as Timeout keeping partial node records; a node error
makes the row Failed; otherwise Completed with the declared outputs. -/
def exec_line (tools : ToolTable) (g : FlowGraph) (lineTimeoutSec : Nat)
    (inputs : List (String × String)) (index : Option Nat) (run_id : Option String)
    (variant_id : String) (validate_inputs : Bool) (node_concurrency : Nat)
    (allow_generator_output : Bool) : LineResult :=
  if validate_inputs && ! inputsValid g inputs then
    { run_id := run_id, index := index, output := [], nodeRuns := [],
      status := Status.failed, errorMsg := some "Invalid row input: schema mismatch." }
  else
    let lineNodes := g.nodes.filter (fun nd => ! nd.aggregation)
    let slots := runNodes tools inputs lineNodes []
    let outs := slots.map (fun t => (t.1, t.2.1))
    let nodeRuns := slots.map nodeRunOf
    let dur := slots.foldl (fun a t => a + t.2.2) 0
    if lineTimeoutSec < dur then
      { run_id := run_id, index := index, output := [], nodeRuns := nodeRuns,
        status := Status.timeout, errorMsg := some "Line execution timed out." }
    else
      match firstNodeError slots with
      | some e =>
          { run_id := run_id, index := index, output := flowOutputs g inputs outs,
            nodeRuns := nodeRuns, status := Status.failed, errorMsg := some e }
      | none =>
          { run_id := run_id, index := index, output := flowOutputs g inputs outs,
            nodeRuns := nodeRuns, status := Status.completed, errorMsg := none }

/-- Resolve one aggregation-node binding against the flow inputs and one
row of the batch. -/
def applyAggRow (tools : ToolTable) (nd : FlowNode) (inputs : List (String × String))
    (row : List (String × String)) : Except String String :=
  let args := nd.bindings.map (fun b => (b.1,
    match b.2 with
    | InputBinding.literal v => v
    | InputBinding.flowInput k => (List.lookup k inputs).getD SENTINEL
    | InputBinding.nodeOutput n => (List.lookup n row).getD SENTINEL))
  (tools nd.tool args).1

/-- The aggregated entry recorded for one row (a tool error is captured
as its sentinel text, per-node status reports the failure). -/
def aggEntry (r : Except String String) : String :=
  match r with
  | Except.ok v => v
  | Except.error _ => SENTINEL

/-- Modelled from the spec: `exec_aggregation` (the AggregationExecutor
contract). Runs only aggregation-flagged nodes, each indexed over the
caller-ordered batch; one aggregation node's failure never blocks the
others, every outcome is reported per node. -/
def exec_aggregation (tools : ToolTable) (g : FlowGraph)
    (inputs : List (String × String))
    (aggregation_inputs : List (List (String × String)))
    (run_id : Option String) (node_concurrency : Nat) : AggregationResult :=
  let aggNodes := g.nodes.filter (fun nd => nd.aggregation)
  { output := aggNodes.map (fun nd =>
      (nd.nid, aggregation_inputs.map (fun row => aggEntry (applyAggRow tools nd inputs row)))),
    nodeRunInfos := aggNodes.map (fun nd =>
      (nd.nid,
        if aggregation_inputs.all (fun row => (applyAggRow tools nd inputs row).isOk) then
          Status.completed
        else Status.failed)) }

/-- Errors a single-node execution can surface to the caller. -/
inductive ExecError where
  | nodeNotFound (node_name : String)
  | toolFailed (e : String)
deriving DecidableEq, Repr

/-- Modelled from the spec: `load_and_exec_node` (the SingleNodeDebugger
contract). Executes exactly the named node on caller-supplied substitute
dependency outputs; an absent name is a not-found user error; a tool
failure is captured in the node record unless `raise_ex` is set. -/
def load_and_exec_node (tools : ToolTable) (g : FlowGraph) (node_name : String)
    (flow_inputs : List (String × String))
    (dependency_nodes_outputs : List (String × String))
    (raise_ex : Bool) : Except ExecError NodeRunInfo :=
  match g.nodes.find? (fun nd => nd.nid == node_name) with
  | none => Except.error (ExecError.nodeNotFound node_name)
  | some nd =>
      let args := nd.bindings.map (fun b => (b.1,
        match b.2 with
        | InputBinding.literal v => v
        | InputBinding.flowInput k => (List.lookup k flow_inputs).getD SENTINEL
        | InputBinding.nodeOutput n => (List.lookup n dependency_nodes_outputs).getD SENTINEL))
      let r := tools nd.tool args
      match r.1 with
      | Except.ok _ => Except.ok ⟨nd.nid, Status.completed, r.2, none⟩
      | Except.error e =>
          if raise_ex then Except.error (ExecError.toolFailed e)
          else Except.ok ⟨nd.nid, Status.failed, r.2, some e⟩

/-- Modelled from the spec: the strict-mode wrapper around a row
execution — with `raise_ex` the first unrecoverable (row-level) failure
aborts and surfaces; Timeout is a terminal status, not an exception. -/
def exec_line_strict (tools : ToolTable) (g : FlowGraph) (lineTimeoutSec : Nat)
    (raise_ex : Bool) (inputs : List (String × String)) (index : Option Nat)
    (run_id : Option String) (variant_id : String) (validate_inputs : Bool)
    (node_concurrency : Nat) (allow_generator_output : Bool) :
    Except String LineResult :=
  let r := exec_line tools g lineTimeoutSec inputs index run_id variant_id
    validate_inputs node_concurrency allow_generator_output
  if raise_ex && r.status == Status.failed then
    Except.error (r.errorMsg.getD "line failed")
  else
    Except.ok r

/-! ## Variant materialization and the scoped temporary directory -/

/-- A configuration error from variant materialization. -/
inductive VariantError where
  | unknownVariant (node v : String)
deriving DecidableEq, Repr

/-- Modelled from the spec: the VariantResolver — replace the target
node's configuration with the named variant's override values, leaving
every other node, edge and binding untouched; an unknown variant for the
target node is a configuration error. -/
def materialize_variant (g : FlowGraph) (tuning_node : String) (variant : String) :
    Except VariantError FlowGraph :=
  match List.lookup tuning_node g.node_variants with
  | none => Except.error (VariantError.unknownVariant tuning_node variant)
  | some vs =>
      match vs.find? (fun nv => nv.vid == variant) with
      | none => Except.error (VariantError.unknownVariant tuning_node variant)
      | some nv =>
          Except.ok { g with nodes := g.nodes.map (fun nd =>
            if nd.nid == tuning_node then { nd with config := nv.config } else nd) }

/-- The live temporary working-directory copies, by identifier. -/
structure TempDirState where
  live : List Nat
deriving DecidableEq, Repr

/-- Acquire a temporary working-directory copy. -/
def acquireTempDir (s : TempDirState) (tid : Nat) : TempDirState :=
  { live := s.live ++ [tid] }

/-- Release a temporary working-directory copy. -/
def releaseTempDir (s : TempDirState) (tid : Nat) : TempDirState :=
  { live := s.live.filter (fun t => t != tid) }

/-- Modelled from the spec: `variant_overwrite_context` (not under src;
only its caller `Flow._init_executable` is), as the spec's acquire/release
scope around a temporary working copy: the body runs between acquire and
release, and release happens on every exit path — the body's value and
its error both pass through after release; cooperative cancellation
reaches a with-scope as an exception and takes the same error path. -/
def withVariantOverwriteContext {α : Type} (tid : Nat) (s : TempDirState)
    (body : Nat → Except String α) : Except String α × TempDirState :=
  let s1 := acquireTempDir s tid
  let r := body tid
  (r, releaseTempDir s1 tid)

/-- Modelled from the spec: the materialized executable flow
(`ExecutableFlow.from_yaml` is not under src) — pure graph data; per the
spec it retains no reference to the temporary working directory, so its
only fields are the graph's. -/
structure ExecutableFlow where
  nodes : List FlowNode
  inputSchema : List String
  outputSchema : List (String × InputBinding)
  workingDirRef : Option Nat
deriving DecidableEq, Repr

/-- Modelled from the spec: building the executable from the materialized
graph; `workingDirRef := none` records that no temp-dir reference is kept. -/
def executableOfGraph (g : FlowGraph) : ExecutableFlow :=
  { nodes := g.nodes, inputSchema := g.inputSchema,
    outputSchema := g.outputSchema, workingDirRef := none }

/-- `Flow._init_executable`: materialize the variant inside the scoped
temporary working-directory copy and return the executable. -/
def init_executable (g : FlowGraph) (tuning_node : String) (variant : String)
    (tid : Nat) (s : TempDirState) : Except String ExecutableFlow × TempDirState :=
  withVariantOverwriteContext tid s (fun _ =>
    match materialize_variant g tuning_node variant with
    | Except.ok g2 => Except.ok (executableOfGraph g2)
    | Except.error _ => Except.error "configuration error: unknown variant")

/-! ## Concrete fixtures used by witnesses -/

/-- A small file system: a project directory holding a dag file, plus a
stray text file. -/
def fsSample : FileSys :=
  { pathExists := fun p =>
      p == ["root", "proj"] || p == ["root", "proj", "flow.dag.yaml"]
        || p == ["root", "other.txt"],
    isDir := fun p => p == ["root", "proj"],
    isFile := fun p =>
      p == ["root", "proj", "flow.dag.yaml"] || p == ["root", "other.txt"] }

/-- A sample connection object. -/
def connObjA : ConnObj := ⟨7⟩

/-- A sample flow context. -/
def ctxBase : FlowContextState :=
  { connections := [("node1", ConnEntry.dict [("conn", ConnVal.str "azure")])],
    connection_objs := [("connection_7", connObjA)],
    variant := some "variant_1",
    environment_variables := [("A", "1")],
    overrides := [("k", "v")],
    streaming := some false }

/-- The same context with a different environment-variable mapping. -/
def ctxAltEnv : FlowContextState :=
  { ctxBase with environment_variables := [("B", "2"), ("C", "3")] }

/-- A tool table whose every call succeeds with output "out" in one time
unit. -/
def toolsOk : ToolTable := fun _ _ => (Except.ok "out", 1)

/-- A tool table whose every call fails. -/
def toolsBoom : ToolTable := fun _ _ => (Except.error "boom", 1)

/-- A two-node line graph: node `first` feeds node `second`; `first` has
one variant. -/
def gLine : FlowGraph :=
  { nodes :=
      [{ nid := "first", tool := "t1", bindings := [("x", InputBinding.flowInput "q")],
         config := [("temp", "0")], aggregation := false, toleratesError := false },
       { nid := "second", tool := "t2", bindings := [("y", InputBinding.nodeOutput "first")],
         config := [], aggregation := false, toleratesError := false }],
    inputSchema := ["q"],
    outputSchema := [("ans", InputBinding.nodeOutput "second")],
    node_variants := [("first", [{ vid := "variant_1", config := [("temp", "1")] }])] }

/-- The line graph extended with one aggregation node over `second`. -/
def gAgg : FlowGraph :=
  { gLine with nodes := gLine.nodes ++
      [{ nid := "agg", tool := "t3", bindings := [("vals", InputBinding.nodeOutput "second")],
         config := [], aggregation := true, toleratesError := false }] }

/-- A two-row batch of per-row outputs, in caller order. -/
def batch2 : List (List (String × String)) := [[("second", "a")], [("second", "b")]]

/-- The sample graph after materializing `variant_1` on `first`. -/
def gLineVar : FlowGraph :=
  { gLine with nodes :=
      [{ nid := "first", tool := "t1", bindings := [("x", InputBinding.flowInput "q")],
         config := [("temp", "1")], aggregation := false, toleratesError := false },
       { nid := "second", tool := "t2", bindings := [("y", InputBinding.nodeOutput "first")],
         config := [], aggregation := false, toleratesError := false }] }

/-- A context holding one unresolved connection object (Python id 42). -/
def ctxObjs : FlowContextState :=
  { connections := [("node1", ConnEntry.dict [("conn", ConnVal.obj ⟨42⟩)])],
    connection_objs := [], variant := none, environment_variables := [],
    overrides := [], streaming := none }

/-! ## Theorems -/

/-- Each rendered digit is below the base. -/
theorem digitsOf_lt (n : Nat) : ∀ d ∈ digitsOf n, d < 10 := by
  intro d hd
  unfold digitsOf at hd
  split at hd
  · simp at hd
    omega
  · exact Nat.digits_lt_base (by norm_num) hd

/-- The rendered digits evaluate back to the number. -/
theorem ofDigits_digitsOf (n : Nat) : Nat.ofDigits 10 (digitsOf n) = n := by
  unfold digitsOf
  split
  · simp [Nat.ofDigits, *]
  · exact Nat.ofDigits_digits 10 n

/-- `Nat.digitChar` is injective below 10. -/
theorem digitChar_inj_lt :
    ∀ d1, d1 < 10 → ∀ d2, d2 < 10 → Nat.digitChar d1 = Nat.digitChar d2 → d1 = d2 := by
  decide

/-- Mapping `Nat.digitChar` over digit lists is injective. -/
theorem map_digitChar_inj (l1 : List Nat) :
    ∀ l2, (∀ d ∈ l1, d < 10) → (∀ d ∈ l2, d < 10) →
    l1.map Nat.digitChar = l2.map Nat.digitChar → l1 = l2 := by
  induction l1 with
  | nil =>
    intro l2 _ _ h
    cases l2 <;> simp_all
  | cons a t ih =>
    intro l2 h1 h2 h
    cases l2 with
    | nil => simp at h
    | cons b t2 =>
      simp only [List.map_cons, List.cons.injEq] at h
      have hab : a = b :=
        digitChar_inj_lt a (h1 a (by simp)) b (h2 b (by simp)) h.1
      have ht : t = t2 :=
        ih t2 (fun d hd => h1 d (by simp [hd])) (fun d hd => h2 d (by simp [hd])) h.2
      simp [hab, ht]

/-- `natStr` in terms of `digitsOf`. -/
theorem natStr_digitsOf (n : Nat) :
    natStr n = ((digitsOf n).reverse.map Nat.digitChar).asString := by
  unfold natStr digitsOf
  split
  · rfl
  · rfl

/-- Decimal rendering is injective. -/
theorem natStr_inj (m n : Nat) (h : natStr m = natStr n) : m = n := by
  rw [natStr_digitsOf, natStr_digitsOf] at h
  have hl : (digitsOf m).reverse.map Nat.digitChar
      = (digitsOf n).reverse.map Nat.digitChar := by
    have := congrArg String.data h
    simpa [List.asString] using this
  have hrev : (digitsOf m).reverse = (digitsOf n).reverse :=
    map_digitChar_inj _ _ (fun d hd => digitsOf_lt m d (List.mem_reverse.mp hd))
      (fun d hd => digitsOf_lt n d (List.mem_reverse.mp hd)) hl
  have hdig : digitsOf m = digitsOf n := by
    simpa using congrArg List.reverse hrev
  have hofd := congrArg (Nat.ofDigits 10) hdig
  rwa [ofDigits_digitsOf, ofDigits_digitsOf] at hofd

/-- Two distinct connection objects never collide on their generated
name. -/
theorem getConnectionObjName_inj (a b : ConnObj)
    (h : getConnectionObjName a = getConnectionObjName b) : a = b := by
  unfold getConnectionObjName at h
  have hd := congrArg String.data h
  rw [String.data_append, String.data_append] at hd
  have htail := List.append_cancel_left hd
  have hn : natStr a.pid = natStr b.pid := String.ext htail
  have hpid := natStr_inj _ _ hn
  cases a
  cases b
  simpa using hpid

/-- Lookup finds the key at the head. -/
theorem lookup_cons_self (k : String) (v : ConnObj) (t : List (String × ConnObj)) :
    List.lookup k ((k, v) :: t) = some v := by
  simp [List.lookup]

/-- Lookup skips a head with a different key. -/
theorem lookup_cons_ne (a k : String) (v : ConnObj) (t : List (String × ConnObj))
    (h : a ≠ k) : List.lookup a ((k, v) :: t) = List.lookup a t := by
  have hb : (a == k) = false := by simpa using h
  simp [List.lookup, hb]

/-- Lookup over an append searches left first. -/
theorem lookup_append (a : String) (l l2 : List (String × ConnObj)) :
    List.lookup a (l ++ l2) = (List.lookup a l).or (List.lookup a l2) := by
  induction l with
  | nil => simp [List.lookup]
  | cons p t ih =>
    obtain ⟨pk, pv⟩ := p
    by_cases hak : a = pk
    · subst hak
      simp [List.lookup, ih]
    · have hb : (a == pk) = false := by simpa using hak
      simp [List.lookup, hb, ih]

/-- The in-place update of Python dict assignment rewrites the looked-up
value. -/
theorem lookup_map_put (a : String) (v : ConnObj) (l : List (String × ConnObj))
    (h : (List.lookup a l).isSome) :
    List.lookup a (l.map (fun p => if p.1 = a then (a, v) else p)) = some v := by
  induction l with
  | nil => simp [List.lookup] at h
  | cons p t ih =>
    obtain ⟨pk, pv⟩ := p
    simp only [List.map_cons]
    by_cases hpk : pk = a
    · subst hpk
      rw [if_pos rfl]
      exact lookup_cons_self pk v _
    · rw [if_neg hpk]
      have hne : a ≠ pk := fun he => hpk he.symm
      rw [lookup_cons_ne a pk pv _ hne]
      rw [lookup_cons_ne a pk pv t hne] at h
      exact ih h

/-- The in-place update leaves other keys' lookups alone. -/
theorem lookup_map_put_ne (a k : String) (v : ConnObj) (l : List (String × ConnObj))
    (h : a ≠ k) :
    List.lookup a (l.map (fun p => if p.1 = k then (k, v) else p)) = List.lookup a l := by
  induction l with
  | nil => simp
  | cons p t ih =>
    obtain ⟨pk, pv⟩ := p
    simp only [List.map_cons]
    by_cases hpk : pk = k
    · subst hpk
      rw [if_pos rfl]
      rw [lookup_cons_ne a pk v _ h, lookup_cons_ne a pk pv t h]
      exact ih
    · rw [if_neg hpk]
      by_cases hak : a = pk
      · subst hak
        rw [lookup_cons_self, lookup_cons_self]
      · have hne : a ≠ pk := hak
        rw [lookup_cons_ne a pk pv _ hne, lookup_cons_ne a pk pv t hne]
        exact ih

/-- After `d[k] = v`, looking up `k` gives `v`. -/
theorem lookup_assocPut_self (a : String) (v : ConnObj) (l : List (String × ConnObj)) :
    List.lookup a (assocPut l a v) = some v := by
  unfold assocPut
  split
  · exact lookup_map_put a v l (by assumption)
  · rw [lookup_append]
    have hnone : List.lookup a l = none := by
      rename_i hs
      exact Option.not_isSome_iff_eq_none.mp hs
    rw [hnone]
    simp [lookup_cons_self]

/-- After `d[k] = v`, other keys look up as before. -/
theorem lookup_assocPut_ne (a k : String) (v : ConnObj) (l : List (String × ConnObj))
    (h : a ≠ k) : List.lookup a (assocPut l k v) = List.lookup a l := by
  unfold assocPut
  split
  · exact lookup_map_put_ne a k v l h
  · rw [lookup_append]
    rw [lookup_cons_ne a k v [] h]
    cases hl : List.lookup a l <;> simp [List.lookup]


/-- C9: `Flow.load(source)` raises for a source that does not exist,
returns a flow whose code is the directory when the source is a directory
containing `flow.dag.yaml`, returns a flow whose code is the parent when
the source is a file named exactly `flow.dag.yaml`, and raises for every
other existing path. -/
theorem flow_load_cases (fs : FileSys) (source : FsPath) :
    (fs.pathExists source = false →
      Flow.load fs source = Except.error FlowErr.sourceNotExist) ∧
    (fs.pathExists source = true → fs.isDir source = true →
      fs.isFile (pathChild source DAG_FILE_NAME) = true →
      Flow.load fs source = Except.ok { code := source, path := none }) ∧
    (fs.pathExists source = true →
      ¬ (fs.isDir source = true ∧ fs.isFile (pathChild source DAG_FILE_NAME) = true) →
      fs.isFile source = true → pathName source = DAG_FILE_NAME →
      Flow.load fs source = Except.ok { code := pathParent source, path := none }) ∧
    (fs.pathExists source = true →
      ¬ (fs.isDir source = true ∧ fs.isFile (pathChild source DAG_FILE_NAME) = true) →
      ¬ (fs.isFile source = true ∧ pathName source = DAG_FILE_NAME) →
      Flow.load fs source = Except.error FlowErr.invalidSource) := by
  refine ⟨?_, ?_, ?_, ?_⟩
  · intro h1
    simp [Flow.load, h1]
  · intro h1 h2 h3
    simp [Flow.load, h1, h2, h3]
  · intro h1 h2 h3 h4
    have hdir : ¬ (fs.isDir source && fs.isFile (pathChild source DAG_FILE_NAME)) = true := by
      simpa [Bool.and_eq_true] using h2
    simp [Flow.load, h1, hdir, h3, h4]
  · intro h1 h2 h3
    have hdir : ¬ (fs.isDir source && fs.isFile (pathChild source DAG_FILE_NAME)) = true := by
      simpa [Bool.and_eq_true] using h2
    have hfile : ¬ (fs.isFile source && pathName source == DAG_FILE_NAME) = true := by
      simpa [Bool.and_eq_true] using h3
    simp [Flow.load, h1, hdir, hfile]

/-- Witness for C9: all four branches of `Flow.load` on the sample file
system. -/
theorem flow_load_cases_witness :
    Flow.load fsSample ["nope"] = Except.error FlowErr.sourceNotExist ∧
    Flow.load fsSample ["root", "proj"] = Except.ok { code := ["root", "proj"], path := none } ∧
    Flow.load fsSample ["root", "proj", "flow.dag.yaml"]
      = Except.ok { code := ["root", "proj"], path := none } ∧
    Flow.load fsSample ["root", "other.txt"] = Except.error FlowErr.invalidSource :=
  ⟨(flow_load_cases fsSample ["nope"]).1 (by decide),
   (flow_load_cases fsSample ["root", "proj"]).2.1 (by decide) (by decide) (by decide),
   (flow_load_cases fsSample ["root", "proj", "flow.dag.yaml"]).2.2.1
     (by decide) (by decide) (by decide) (by decide),
   (flow_load_cases fsSample ["root", "other.txt"]).2.2.2 (by decide) (by decide) (by decide)⟩

/-- C10: reading `Flow.path` raises a `UserErrorException` exactly when
the resolved flow file (the explicit `_path` if set, else
`code/flow.dag.yaml`) is not an existing file, and otherwise returns
that file; the property is a pure read of the record. -/
theorem flow_path_cases (fs : FileSys) (f : FlowRecord) :
    (∀ p, f.path = some p → Flow.resolvedFile f = p) ∧
    (f.path = none → Flow.resolvedFile f = pathChild f.code DAG_FILE_NAME) ∧
    (fs.isFile (Flow.resolvedFile f) = false →
      Flow.pathProperty fs f
        = Except.error (FlowErr.userError "The directory does not contain a valid flow.")) ∧
    (fs.isFile (Flow.resolvedFile f) = true →
      Flow.pathProperty fs f = Except.ok (Flow.resolvedFile f)) := by
  refine ⟨?_, ?_, ?_, ?_⟩
  · intro p hp
    simp [Flow.resolvedFile, hp]
  · intro hp
    simp [Flow.resolvedFile, hp]
  · intro h
    simp [Flow.pathProperty, h]
  · intro h
    simp [Flow.pathProperty, h]

/-- Witness for C10: the error branch on a bad record and the return
branch on a good one, on the sample file system. -/
theorem flow_path_cases_witness :
    Flow.resolvedFile ⟨["root", "proj"], none⟩ = ["root", "proj", "flow.dag.yaml"] ∧
    Flow.pathProperty fsSample ⟨["root", "proj"], none⟩
      = Except.ok ["root", "proj", "flow.dag.yaml"] ∧
    Flow.pathProperty fsSample ⟨["nope"], none⟩
      = Except.error (FlowErr.userError "The directory does not contain a valid flow.") :=
  ⟨(flow_path_cases fsSample ⟨["root", "proj"], none⟩).2.1 (by decide),
   (flow_path_cases fsSample ⟨["root", "proj"], none⟩).2.2.2 (by decide),
   (flow_path_cases fsSample ⟨["nope"], none⟩).2.2.1 (by decide)⟩

/-- C2: the `FlowContext.__hash__` identity key reads only the variant,
the connections content (the mapping plus the cached connection objects),
and the overrides, for every choice of runtime hash and serialization
functions; two contexts agreeing on those four fields — in particular two
differing only in `environment_variables` — get the same key. -/
theorem fcHash_ignores_environment (hOpt : Option String → Nat) (hStr : String → Nat)
    (hId : Nat → Nat) (dumpsConn : List (String × ConnEntry) → String)
    (dumpsOv : List (String × String) → String) (st1 st2 : FlowContextState)
    (hv : st1.variant = st2.variant) (hc : st1.connections = st2.connections)
    (ho : st1.connection_objs = st2.connection_objs)
    (hw : st1.overrides = st2.overrides) :
    fcHash hOpt hStr hId dumpsConn dumpsOv st1
      = fcHash hOpt hStr hId dumpsConn dumpsOv st2 := by
  simp [fcHash, hv, hc, ho, hw]

/-- Witness for C2: two concrete contexts that differ exactly in their
environment variables hash alike. -/
theorem fcHash_ignores_environment_witness :
    ctxBase.environment_variables ≠ ctxAltEnv.environment_variables ∧
    fcHash (fun o => (o.getD "").length) String.length (fun n => n)
        (fun _ => "conns") (fun _ => "ovrs") ctxBase
      = fcHash (fun o => (o.getD "").length) String.length (fun n => n)
        (fun _ => "conns") (fun _ => "ovrs") ctxAltEnv :=
  ⟨by decide,
   fcHash_ignores_environment _ _ _ _ _ ctxBase ctxAltEnv rfl rfl rfl rfl⟩

/-- C1: every call to `exec_line` returns a line result whose overall
status is Completed, Failed or Timeout — never any other status. -/
theorem exec_line_status_total (tools : ToolTable) (g : FlowGraph) (lineTimeoutSec : Nat)
    (inputs : List (String × String)) (index : Option Nat) (run_id : Option String)
    (variant_id : String) (validate_inputs : Bool) (node_concurrency : Nat)
    (allow_generator_output : Bool) :
    (exec_line tools g lineTimeoutSec inputs index run_id variant_id validate_inputs
        node_concurrency allow_generator_output).status = Status.completed ∨
    (exec_line tools g lineTimeoutSec inputs index run_id variant_id validate_inputs
        node_concurrency allow_generator_output).status = Status.failed ∨
    (exec_line tools g lineTimeoutSec inputs index run_id variant_id validate_inputs
        node_concurrency allow_generator_output).status = Status.timeout := by
  unfold exec_line
  split
  · exact Or.inr (Or.inl rfl)
  · dsimp only
    split
    · exact Or.inr (Or.inr rfl)
    · split
      · exact Or.inr (Or.inl rfl)
      · exact Or.inl rfl

/-- C5: every per-node entry list of an aggregation result has exactly
one aggregated entry per supplied row, in the supplied order (the i-th
entry comes from the i-th row of the batch). -/
theorem exec_aggregation_batch_shape (tools : ToolTable) (g : FlowGraph)
    (inputs : List (String × String))
    (aggregation_inputs : List (List (String × String)))
    (run_id : Option String) (node_concurrency : Nat) :
    ∀ nid entries,
      (nid, entries) ∈ (exec_aggregation tools g inputs aggregation_inputs
        run_id node_concurrency).output →
      entries.length = aggregation_inputs.length ∧
      ∃ nd, nd ∈ g.nodes ∧ nd.aggregation = true ∧ nd.nid = nid ∧
        entries = aggregation_inputs.map
          (fun row => aggEntry (applyAggRow tools nd inputs row)) := by
  intro nid entries hmem
  simp only [exec_aggregation, List.mem_map] at hmem
  obtain ⟨nd, hnd, heq⟩ := hmem
  have h1 : nd.nid = nid := congrArg Prod.fst heq
  have h2 : entries = aggregation_inputs.map
      (fun row => aggEntry (applyAggRow tools nd inputs row)) :=
    (congrArg Prod.snd heq).symm
  have hf := List.mem_filter.mp hnd
  refine ⟨?_, nd, hf.1, by simpa using hf.2, h1, h2⟩
  simp [h2]

/-- Witness for C5: aggregating a two-row batch through the sample graph
yields two entries for the single aggregation node, in batch order. -/
theorem exec_aggregation_batch_shape_witness :
    (["out", "out"] : List String).length = batch2.length ∧
    ∃ nd, nd ∈ gAgg.nodes ∧ nd.aggregation = true ∧ nd.nid = "agg" ∧
      (["out", "out"] : List String) = batch2.map
        (fun row => aggEntry (applyAggRow toolsOk nd [] row)) :=
  exec_aggregation_batch_shape toolsOk gAgg [] batch2 none 4 "agg" ["out", "out"]
    (by decide)

/-- C7: when no node of the graph bears the requested name,
`load_and_exec_node` fails with a not-found error instead of returning a
node-level result. -/
theorem load_and_exec_node_not_found (tools : ToolTable) (g : FlowGraph)
    (node_name : String) (flow_inputs : List (String × String))
    (dependency_nodes_outputs : List (String × String)) (raise_ex : Bool)
    (habsent : ∀ nd, nd ∈ g.nodes → nd.nid ≠ node_name) :
    load_and_exec_node tools g node_name flow_inputs dependency_nodes_outputs raise_ex
      = Except.error (ExecError.nodeNotFound node_name) := by
  unfold load_and_exec_node
  have hnone : g.nodes.find? (fun nd => nd.nid == node_name) = none := by
    rw [List.find?_eq_none]
    intro nd hnd
    simpa using habsent nd hnd
  simp [hnone]

/-- Witness for C7: a name absent from the sample graph is rejected as
not found. -/
theorem load_and_exec_node_not_found_witness :
    load_and_exec_node toolsOk gLine "third" [("q", "1")] [] false
      = Except.error (ExecError.nodeNotFound "third") :=
  load_and_exec_node_not_found toolsOk gLine "third" [("q", "1")] [] false (by decide)

/-- C6 counterexample: `exec_line` is a public entry point of the
executor, and its declared parameter list does not include a `raise_ex`
flag — so not every public entry point accepts one. -/
theorem execLineParams_no_raise_ex :
    ¬ ("raise_ex" ∈ execLineParams.map Param.pname) := by
  decide

/-- C6 amended: the `create` and `load_and_exec_node` entry points accept
a `raise_ex` flag; with the flag off a row failure is captured in the
result status/error and no exception escapes (a found node's tool
failure is likewise captured in the node record), and with the flag on a
failed row aborts with the captured error surfaced to the caller. -/
theorem raise_ex_behaviour :
    ("raise_ex" ∈ createParams.map Param.pname) ∧
    ("raise_ex" ∈ loadAndExecNodeParams.map Param.pname) ∧
    (∀ (tools : ToolTable) (g : FlowGraph) (lt : Nat) (inputs : List (String × String))
        (index : Option Nat) (run_id : Option String) (vid : String) (vi : Bool)
        (nc : Nat) (ago : Bool),
      exec_line_strict tools g lt false inputs index run_id vid vi nc ago
        = Except.ok (exec_line tools g lt inputs index run_id vid vi nc ago)) ∧
    (∀ (tools : ToolTable) (g : FlowGraph) (lt : Nat) (inputs : List (String × String))
        (index : Option Nat) (run_id : Option String) (vid : String) (vi : Bool)
        (nc : Nat) (ago : Bool),
      (exec_line tools g lt inputs index run_id vid vi nc ago).status = Status.failed →
      exec_line_strict tools g lt true inputs index run_id vid vi nc ago
        = Except.error
            ((exec_line tools g lt inputs index run_id vid vi nc ago).errorMsg.getD
              "line failed")) ∧
    (∀ (tools : ToolTable) (g : FlowGraph) (nm : String)
        (fi dno : List (String × String)),
      (∃ nd, nd ∈ g.nodes ∧ nd.nid = nm) →
      ∃ r, load_and_exec_node tools g nm fi dno false = Except.ok r) := by
  refine ⟨by decide, by decide, ?_, ?_, ?_⟩
  · intro tools g lt inputs index run_id vid vi nc ago
    simp [exec_line_strict]
  · intro tools g lt inputs index run_id vid vi nc ago h
    simp [exec_line_strict, h]
  · intro tools g nm fi dno hex
    unfold load_and_exec_node
    obtain ⟨nd, hnd, hname⟩ := hex
    have : (g.nodes.find? (fun x => x.nid == nm)).isSome := by
      rw [List.find?_isSome]
      exact ⟨nd, hnd, by simp [hname]⟩
    obtain ⟨nd2, hnd2⟩ := Option.isSome_iff_exists.mp this
    rw [hnd2]
    dsimp only
    split <;> exact ⟨_, rfl⟩

/-- Witness for C6 (amended): concrete instances of each behavioural
conjunct — capture with the flag off, abort with the flag on, node-level
capture for a present node. -/
theorem raise_ex_behaviour_witness :
    (exec_line_strict toolsBoom gLine 100 false [("q", "1")] none none "" true 4 false
      = Except.ok (exec_line toolsBoom gLine 100 [("q", "1")] none none "" true 4 false)) ∧
    (exec_line_strict toolsBoom gLine 100 true [("q", "1")] none none "" true 4 false
      = Except.error
          ((exec_line toolsBoom gLine 100 [("q", "1")] none none "" true 4 false).errorMsg.getD
            "line failed")) ∧
    (∃ r, load_and_exec_node toolsBoom gLine "first" [("q", "1")] [] false = Except.ok r) :=
  ⟨raise_ex_behaviour.2.2.1 toolsBoom gLine 100 [("q", "1")] none none "" true 4 false,
   raise_ex_behaviour.2.2.2.1 toolsBoom gLine 100 [("q", "1")] none none "" true 4 false
     (by decide),
   raise_ex_behaviour.2.2.2.2 toolsBoom gLine "first" [("q", "1")] []
     ⟨gLine.nodes.head (by decide), by decide, by decide⟩⟩

/-- C3: a successful variant materialization preserves the flow schema,
the variant table and the node count; at every position, the node keeps
its identifier, tool, input bindings, aggregation flag and tolerance
flag, a node other than the target keeps its whole record, and the
target node's configuration becomes exactly the selected variant's
override values. -/
theorem materialize_variant_frame (g : FlowGraph) (tn v : String) (g2 : FlowGraph)
    (h : materialize_variant g tn v = Except.ok g2) :
    g2.inputSchema = g.inputSchema ∧ g2.outputSchema = g.outputSchema ∧
    g2.node_variants = g.node_variants ∧ g2.nodes.length = g.nodes.length ∧
    ∃ vs nv, List.lookup tn g.node_variants = some vs ∧
      vs.find? (fun x => x.vid == v) = some nv ∧
      ∀ i (hi : i < g.nodes.length) (hi2 : i < g2.nodes.length),
        ((g.nodes.get ⟨i, hi⟩).nid ≠ tn →
          g2.nodes.get ⟨i, hi2⟩ = g.nodes.get ⟨i, hi⟩) ∧
        ((g.nodes.get ⟨i, hi⟩).nid = tn →
          g2.nodes.get ⟨i, hi2⟩ = { g.nodes.get ⟨i, hi⟩ with config := nv.config }) := by
  unfold materialize_variant at h
  cases hvs : List.lookup tn g.node_variants with
  | none => rw [hvs] at h; exact absurd h (by simp)
  | some vs =>
    rw [hvs] at h
    dsimp only at h
    cases hnv : vs.find? (fun x => x.vid == v) with
    | none => rw [hnv] at h; exact absurd h (by simp)
    | some nv =>
      rw [hnv] at h
      dsimp only at h
      have hg2 : g2 = { g with nodes := g.nodes.map (fun nd =>
          if nd.nid == tn then { nd with config := nv.config } else nd) } := by
        cases h; rfl
      subst hg2
      refine ⟨rfl, rfl, rfl, by simp, vs, nv, rfl, hnv, ?_⟩
      intro i hi hi2
      constructor
      · intro hne
        simp only [List.get_eq_getElem] at hne ⊢
        simp only [List.getElem_map]
        rw [if_neg (by simpa using hne)]
      · intro heq
        simp only [List.get_eq_getElem] at heq ⊢
        simp [List.getElem_map, heq]

/-- Witness for C3: materializing `variant_1` on node `first` of the
sample graph rewrites only that node's configuration. -/
theorem materialize_variant_frame_witness :
    (gLineVar).inputSchema = gLine.inputSchema ∧
    (gLineVar).outputSchema = gLine.outputSchema ∧
    (gLineVar).node_variants = gLine.node_variants ∧
    (gLineVar).nodes.length = gLine.nodes.length ∧
    ∃ vs nv, List.lookup "first" gLine.node_variants = some vs ∧
      vs.find? (fun x => x.vid == "variant_1") = some nv ∧
      ∀ i (hi : i < gLine.nodes.length) (hi2 : i < (gLineVar).nodes.length),
        ((gLine.nodes.get ⟨i, hi⟩).nid ≠ "first" →
          (gLineVar).nodes.get ⟨i, hi2⟩ = gLine.nodes.get ⟨i, hi⟩) ∧
        ((gLine.nodes.get ⟨i, hi⟩).nid = "first" →
          (gLineVar).nodes.get ⟨i, hi2⟩
            = { gLine.nodes.get ⟨i, hi⟩ with config := nv.config }) :=
  materialize_variant_frame gLine "first" "variant_1" gLineVar (by rfl)

/-- C4: `_init_executable` materializes inside the scoped temporary
working-directory copy; the copy is released on every exit path of the
scope (the successful one and the failing one alike), and a returned
executable carries no reference to the released directory. -/
theorem init_executable_scope (g : FlowGraph) (tn v : String) (tid : Nat)
    (s : TempDirState) :
    tid ∉ (init_executable g tn v tid s).2.live ∧
    (∀ e, (init_executable g tn v tid s).1 = Except.ok e → e.workingDirRef = none) := by
  constructor
  · intro hmem
    have := (List.mem_filter.mp hmem).2
    simp at this
  · intro e he
    unfold init_executable withVariantOverwriteContext at he
    dsimp only at he
    cases hm : materialize_variant g tn v with
    | ok g2 =>
        rw [hm] at he
        cases he
        rfl
    | error x =>
        rw [hm] at he
        exact absurd he (by simp)

/-- Witness for C4: on the sample graph, after a successful
materialization (temp copy 5) and after a failing one (temp copy 6,
unknown variant), the copy is not live any more, and the returned
executable points at no directory. -/
theorem init_executable_scope_witness :
    5 ∉ (init_executable gLine "first" "variant_1" 5 ⟨[]⟩).2.live ∧
    6 ∉ (init_executable gLine "first" "no_such" 6 ⟨[]⟩).2.live ∧
    (executableOfGraph gLineVar).workingDirRef = none :=
  ⟨(init_executable_scope gLine "first" "variant_1" 5 ⟨[]⟩).1,
   (init_executable_scope gLine "first" "no_such" 6 ⟨[]⟩).1,
   (init_executable_scope gLine "first" "variant_1" 5 ⟨[]⟩).2
     (executableOfGraph gLineVar) (by rfl)⟩

/-- `resolveDict` keeps an established cache binding intact. -/
theorem resolveDict_preserves (c : ConnObj) (d : List (String × ConnVal)) :
    ∀ objs, List.lookup (getConnectionObjName c) objs = some c →
    List.lookup (getConnectionObjName c) (resolveDict d objs).2 = some c := by
  induction d with
  | nil =>
    intro objs h
    simpa [resolveDict] using h
  | cons p t ih =>
    intro objs h
    obtain ⟨pk, pv⟩ := p
    cases pv with
    | str s => simpa [resolveDict] using ih objs h
    | obj c2 =>
      simp only [resolveDict]
      apply ih
      by_cases hc : getConnectionObjName c2 = getConnectionObjName c
      · have hcc : c2 = c := getConnectionObjName_inj _ _ hc
        subst hcc
        rw [hc]
        exact lookup_assocPut_self _ _ _
      · rw [lookup_assocPut_ne _ _ _ _ (fun he => hc he.symm)]
        exact h

/-- After `resolveDict`, every connection object of the dict is cached
under its generated name. -/
theorem resolveDict_caches (k : String) (c : ConnObj) (d : List (String × ConnVal)) :
    ∀ objs, (k, ConnVal.obj c) ∈ d →
    List.lookup (getConnectionObjName c) (resolveDict d objs).2 = some c := by
  induction d with
  | nil =>
    intro objs h
    simp at h
  | cons p t ih =>
    intro objs hmem
    obtain ⟨pk, pv⟩ := p
    rcases List.mem_cons.mp hmem with hhead | htail
    · injection hhead with h1 h2
      subst h1
      cases h2.symm
      simp only [resolveDict]
      exact resolveDict_preserves c t _ (lookup_assocPut_self _ _ _)
    · cases pv with
      | str s =>
        simp only [resolveDict]
        exact ih objs htail
      | obj c2 =>
        simp only [resolveDict]
        exact ih _ htail

/-- `resolveEntries` keeps an established cache binding intact. -/
theorem resolveEntries_preserves (c : ConnObj) (cs : List (String × ConnEntry)) :
    ∀ objs, List.lookup (getConnectionObjName c) objs = some c →
    List.lookup (getConnectionObjName c) (resolveEntries cs objs).2 = some c := by
  induction cs with
  | nil =>
    intro objs h
    simpa [resolveEntries] using h
  | cons p t ih =>
    intro objs h
    obtain ⟨pk, pv⟩ := p
    cases pv with
    | other s => simpa [resolveEntries] using ih objs h
    | dict d =>
      simp only [resolveEntries]
      exact ih _ (resolveDict_preserves c d objs h)

/-- After `resolveEntries`, every connection object anywhere in the
connections mapping is cached under its generated name. -/
theorem resolveEntries_caches (kk k : String) (d : List (String × ConnVal))
    (c : ConnObj) (cs : List (String × ConnEntry)) :
    ∀ objs, (kk, ConnEntry.dict d) ∈ cs → (k, ConnVal.obj c) ∈ d →
    List.lookup (getConnectionObjName c) (resolveEntries cs objs).2 = some c := by
  induction cs with
  | nil =>
    intro objs h _
    simp at h
  | cons p t ih =>
    intro objs hcs hd
    obtain ⟨pk, pv⟩ := p
    rcases List.mem_cons.mp hcs with hhead | htail
    · injection hhead with h1 h2
      subst h1
      cases h2.symm
      simp only [resolveEntries]
      exact resolveEntries_preserves c t _ (resolveDict_caches k c d objs hd)
    · cases pv with
      | other s =>
        simp only [resolveEntries]
        exact ih objs htail hd
      | dict d2 =>
        simp only [resolveEntries]
        exact ih _ htail hd

/-- The rewritten dict a `resolveDict` pass returns. -/
theorem resolveDict_fst (d : List (String × ConnVal)) :
    ∀ objs, (resolveDict d objs).1 = d.map resolveVal := by
  induction d with
  | nil =>
    intro objs
    simp [resolveDict]
  | cons p t ih =>
    intro objs
    obtain ⟨pk, pv⟩ := p
    cases pv <;> simp [resolveDict, resolveVal, ih]

/-- The rewritten connections mapping a `resolveEntries` pass returns. -/
theorem resolveEntries_fst (cs : List (String × ConnEntry)) :
    ∀ objs, (resolveEntries cs objs).1 = cs.map resolveEntry := by
  induction cs with
  | nil =>
    intro objs
    simp [resolveEntries]
  | cons p t ih =>
    intro objs
    obtain ⟨pk, pv⟩ := p
    cases pv <;> simp [resolveEntries, resolveEntry, resolveDict_fst, ih]

/-- A dict already free of connection objects passes through `resolveDict`
untouched, cache included. -/
theorem resolveDict_fixpoint (d : List (String × ConnVal)) :
    ∀ objs, resolveDict (d.map resolveVal) objs = (d.map resolveVal, objs) := by
  induction d with
  | nil =>
    intro objs
    simp [resolveDict]
  | cons p t ih =>
    intro objs
    obtain ⟨pk, pv⟩ := p
    cases pv <;> simp [resolveVal, resolveDict, ih]

/-- A resolved connections mapping passes through `resolveEntries`
untouched, cache included. -/
theorem resolveEntries_fixpoint (cs : List (String × ConnEntry)) :
    ∀ objs, resolveEntries (cs.map resolveEntry) objs = (cs.map resolveEntry, objs) := by
  induction cs with
  | nil =>
    intro objs
    simp [resolveEntries]
  | cons p t ih =>
    intro objs
    obtain ⟨pk, pv⟩ := p
    cases pv <;> simp [resolveEntry, resolveEntries, resolveDict_fixpoint, ih]

/-- C8: `_resolve_connections` replaces every connection-object value of
the connections mapping with its generated name, caches the object in
`_connection_objs` under that name, and is idempotent: a second
application changes neither `connections` nor `_connection_objs`. -/
theorem resolve_connections_spec (st : FlowContextState) :
    (resolve_connections st).connections = st.connections.map resolveEntry ∧
    (∀ kk d k c, (kk, ConnEntry.dict d) ∈ st.connections → (k, ConnVal.obj c) ∈ d →
      List.lookup (getConnectionObjName c) (resolve_connections st).connection_objs
        = some c) ∧
    resolve_connections (resolve_connections st) = resolve_connections st := by
  refine ⟨?_, ?_, ?_⟩
  · simp [resolve_connections, resolveEntries_fst]
  · intro kk d k c hcs hd
    simp only [resolve_connections]
    exact resolveEntries_caches kk k d c st.connections _ hcs hd
  · have hfst : (resolveEntries st.connections st.connection_objs).1
        = st.connections.map resolveEntry :=
      resolveEntries_fst st.connections st.connection_objs
    simp only [resolve_connections]
    rw [hfst, resolveEntries_fixpoint]

/-- Witness for C8: resolving a context holding one connection object
(id 42) renames it in place, caches it, and resolving again is a no-op. -/
theorem resolve_connections_spec_witness :
    (resolve_connections ctxObjs).connections = ctxObjs.connections.map resolveEntry ∧
    List.lookup (getConnectionObjName ⟨42⟩)
      (resolve_connections ctxObjs).connection_objs = some ⟨42⟩ ∧
    resolve_connections (resolve_connections ctxObjs) = resolve_connections ctxObjs :=
  ⟨(resolve_connections_spec ctxObjs).1,
   (resolve_connections_spec ctxObjs).2.1 "node1" [("conn", ConnVal.obj ⟨42⟩)] "conn" ⟨42⟩
     (by simp [ctxObjs]) (by simp),
   (resolve_connections_spec ctxObjs).2.2⟩

end Promptflow
